import Mathlib

/-!
Verification development for the loris caching layer
(`src/loris/img_infocache.py` — `InfoCache`, the metadata cache — and
`src/loris/imgcache.py` — `ImageCache`, the derivative cache).

The Python code is shallowly embedded: the filesystem is an explicit state
value threaded through every operation, Python exceptions are `Except`
values, and the standard-library calls the code makes (`os.path.join`,
`posixpath.split`/`dirname`, `urllib.unquote`, `os.makedirs`,
`os.removedirs`, `str.split`/`join`) are translated from their documented
(CPython 2) semantics.  All string manipulation is re-implemented with
structural recursion over `List Char` so that every definition reduces in
the kernel on concrete inputs.
-/

namespace Loris

/-! ## Python string primitives -/

/-- Python `s[n:]` (drop the first `n` characters). -/
def strDrop (s : String) (n : Nat) : String := ⟨s.data.drop n⟩

/-- Helper for `pySplit`: split a character list on a separator character,
accumulating the current chunk (reversed). -/
def splitCharAux (sep : Char) : List Char → List Char → List (List Char)
  | [], acc => [acc.reverse]
  | c :: rest, acc =>
      if c = sep then acc.reverse :: splitCharAux sep rest []
      else splitCharAux sep rest (c :: acc)

/-- Python `s.split(sep)` for a single-character separator
(`"".split('/') == [""]`, `"/".split('/') == ["", ""]`). -/
def pySplit (s : String) (sep : Char) : List String :=
  (splitCharAux sep s.data []).map (fun l => ⟨l⟩)

/-- Python `sep.join(parts)`. -/
def pyJoin (sep : String) : List String → String
  | [] => ""
  | [s] => s
  | s :: rest => s ++ sep ++ pyJoin sep rest

/-- Python `s.startswith(p)`. -/
def sStarts (s p : String) : Bool := p.data.isPrefixOf s.data

/-- Python `s.endswith(p)`. -/
def sEnds (s p : String) : Bool := p.data.isSuffixOf s.data

/-- Value of a hexadecimal digit character, if it is one. -/
def hexDigit (c : Char) : Option Nat :=
  if '0' ≤ c ∧ c ≤ '9' then some (c.toNat - '0'.toNat)
  else if 'a' ≤ c ∧ c ≤ 'f' then some (c.toNat - 'a'.toNat + 10)
  else if 'A' ≤ c ∧ c ≤ 'F' then some (c.toNat - 'A'.toNat + 10)
  else none

/-- One segment of `urllib.unquote` (a chunk that followed a `'%'` in the
input): decode its two leading hex digits, or re-emit the `'%'` verbatim. -/
def unquoteSeg (seg : List Char) : List Char :=
  match seg with
  | a :: b :: rest =>
      match hexDigit a, hexDigit b with
      | some x, some y => Char.ofNat (16 * x + y) :: rest
      | _, _ => '%' :: seg
  | _ => '%' :: seg

/-- `urllib.unquote` (Python 2): split on `'%'` and decode each following
segment's leading `XX` hex escape; malformed escapes are left verbatim. -/
def unquote (s : String) : String :=
  match pySplit s '%' with
  | [] => ""
  | first :: restSegs =>
      ⟨first.data ++ (restSegs.map (fun t => unquoteSeg t.data)).flatten⟩

/-! ## posixpath primitives -/

/-- Strip trailing `'/'` characters. -/
def rstripSlash (l : List Char) : List Char :=
  (l.reverse.dropWhile (fun c => c = '/')).reverse

/-- Is the list made solely of `'/'` characters? -/
def allSlash (l : List Char) : Bool := l.all (fun c => c = '/')

/-- Index just after the last `'/'` (0 when there is none):
Python `p.rfind('/') + 1`. -/
def lastSlashIdx (d : List Char) : Nat :=
  d.length - (d.reverse.takeWhile (fun c => ¬ (c = '/'))).length

/-- `posixpath.split`: split into `(head, tail)` at the final slash, with
the head's trailing slashes stripped unless it is all slashes. -/
def psplit (p : String) : String × String :=
  let d := p.data
  let i := lastSlashIdx d
  let head := d.take i
  let tail := d.drop i
  let head := if head ≠ [] ∧ ¬ allSlash head then rstripSlash head else head
  (⟨head⟩, ⟨tail⟩)

/-- `posixpath.dirname`. -/
def dirname (p : String) : String := (psplit p).1

/-- `posixpath.basename`. -/
def basename (p : String) : String := (psplit p).2

/-- `posixpath.join` for two components: an absolute second component
replaces the first; otherwise a `'/'` is inserted unless already present. -/
def osJoin (a b : String) : String :=
  if sStarts b "/" then b
  else if a = "" ∨ sEnds a "/" then a ++ b
  else a ++ "/" ++ b

/-- The `head, tail = split(name); if not tail: head, tail = split(head)`
step shared by `os.makedirs` and `os.removedirs`. -/
def splitFix (p : String) : String × String :=
  let pr := psplit p
  if pr.2 = "" then psplit pr.1 else pr

lemma length_dropWhile_le {α : Type} (q : α → Bool) (l : List α) :
    (l.dropWhile q).length ≤ l.length := by
  induction l with
  | nil => simp
  | cons a t ih =>
    by_cases h : q a
    · rw [List.dropWhile_cons_of_pos h]
      exact ih.trans (by simp)
    · rw [List.dropWhile_cons_of_neg h]

lemma length_rstripSlash_le (l : List Char) : (rstripSlash l).length ≤ l.length := by
  simp only [rstripSlash, List.length_reverse]
  exact (length_dropWhile_le _ _).trans (by simp)

lemma data_length_pos (s : String) (h : s ≠ "") : 1 ≤ s.data.length := by
  rcases hq : s.data with _ | ⟨c, t⟩
  · exact absurd (String.ext (show s.data = String.data "" by simp [hq])) h
  · simp

lemma psplit_length (p : String) :
    ((psplit p).1).data.length + ((psplit p).2).data.length ≤ p.data.length := by
  simp only [psplit]
  split
  · have h1 := length_rstripSlash_le (p.data.take (lastSlashIdx p.data))
    have h2 := List.length_take (lastSlashIdx p.data) p.data
    have h3 := List.length_drop (lastSlashIdx p.data) p.data
    omega
  · have h2 := List.length_take (lastSlashIdx p.data) p.data
    have h3 := List.length_drop (lastSlashIdx p.data) p.data
    omega

lemma psplit_fst_lt (p : String) (h : (psplit p).2 ≠ "") :
    ((psplit p).1).data.length < p.data.length := by
  have h0 := psplit_length p
  have h1 := data_length_pos _ h
  omega

lemma splitFix_fst_lt (p : String) (h : (splitFix p).2 ≠ "") :
    ((splitFix p).1).data.length < p.data.length := by
  by_cases hc : (psplit p).2 = ""
  · have he : splitFix p = psplit (psplit p).1 := by simp [splitFix, hc]
    rw [he] at h ⊢
    have h1 : ((psplit p).1).data.length ≤ p.data.length := by
      have h0 := psplit_length p
      omega
    exact lt_of_lt_of_le (psplit_fst_lt _ h) h1
  · have he : splitFix p = psplit p := by simp [splitFix, hc]
    rw [he] at h ⊢
    exact psplit_fst_lt p h

lemma psplit_measure_lt (head tail : String) (ht : tail ≠ "") :
    ((psplit head).1).data.length + (if (psplit head).2 = "" then 0 else 1) <
      head.data.length + (if tail = "" then 0 else 1) := by
  rw [if_neg ht]
  have h0 := psplit_length head
  by_cases hc : (psplit head).2 = ""
  · rw [if_pos hc]
    omega
  · rw [if_neg hc]
    have h2 := data_length_pos _ hc
    omega

/-! ## Python-level values -/

/-- A Python exception, as a value. -/
inductive PyErr
  | keyError
  | attributeError
  | osError
deriving DecidableEq

/-- The request identity handed to both caches (`RequestIdentity` in the
spec; `ImageRequest` in the source): originating URL, raw request path,
path-safe parameter encoding, canonical encoding, is-canonical flag. -/
structure PyRequest where
  url : String
  path : String
  as_path : String
  canonical_as_path : String
  is_canonical : Bool
deriving DecidableEq

/-- A key of the `InfoCache` memory map.  The map is keyed with strings
(`request.url`) everywhere except `__delitem__`, which indexes it with the
request object itself; a Python `dict` compares those by value equality, and
a request object never equals a string, which the two constructors capture. -/
inductive PyKey
  | str (s : String)
  | req (r : PyRequest)
deriving DecidableEq

/-- `ImageInfo` (`loris/img_info.py`, not under `src/`).
Modelled from the spec: a `MetadataRecord` is an opaque descriptive payload
with lossless serialization to UTF-8 text (`to_json`/`from_json`), plus an
optional raw byte buffer for the embedded color profile, serialized
independently of the JSON document. -/
structure ImageInfo where
  payload : String
  color_profile_bytes : Option (List Nat)
deriving DecidableEq

/-- Modelled from the spec: lossless text serialization of the descriptive
payload (the profile buffer is serialized independently, as a sidecar). -/
def ImageInfo.to_json (i : ImageInfo) : String := i.payload

/-- Modelled from the spec: deserialization of the descriptive payload.
The profile buffer is not part of the JSON document; `InfoCache.get`
overwrites it from the sidecar file in every case. -/
def ImageInfo.from_json (s : String) : ImageInfo := ⟨s, none⟩

/-! ## Association-list primitives (Python `dict` / `OrderedDict`)

The memory map of `InfoCache` is an `OrderedDict` in insertion order:
new keys are appended at the end, assigning an existing key keeps its
position, and `popitem(last=False)` removes the head (oldest). -/

/-- Python `d.get(k)` / `k in d` lookup on an association list. -/
def findA {κ α : Type} [DecidableEq κ] (k : κ) : List (κ × α) → Option α
  | [] => none
  | e :: rest => if e.1 = k then some e.2 else findA k rest

/-- Remove a key from an association list (`del d[k]`, key known present). -/
def eraseK {κ α : Type} [DecidableEq κ] (l : List (κ × α)) (k : κ) :
    List (κ × α) :=
  match l with
  | [] => []
  | e :: rest => if e.1 = k then eraseK rest k else e :: eraseK rest k

/-- `OrderedDict` assignment `d[k] = v`: overwrite in place, else append. -/
def odSet {κ α : Type} [DecidableEq κ] (d : List (κ × α)) (k : κ) (v : α) :
    List (κ × α) :=
  match d with
  | [] => [(k, v)]
  | e :: rest => if e.1 = k then (k, v) :: rest else e :: odSet rest k v

/-- Python `del d[k]`: `KeyError` when the key is absent. -/
def odDel {κ α : Type} [DecidableEq κ] (d : List (κ × α)) (k : κ) :
    Except PyErr (List (κ × α)) :=
  if (findA k d).isSome then Except.ok (eraseK d k) else Except.error PyErr.keyError

/-- The `while len(self._dict) >= self.size: self._dict.popitem(last=False)`
loop of `InfoCache.__setitem__`: pop oldest entries while at or above
capacity (`popitem` on an empty dict raises `KeyError`). -/
def evictLoop {κ α : Type} (size : Nat) :
    List (κ × α) → Except PyErr (List (κ × α))
  | [] => if size ≤ 0 then Except.error PyErr.keyError else Except.ok []
  | e :: t =>
      if size ≤ t.length + 1 then evictLoop size t else Except.ok (e :: t)

/-! ## Directory creation and removal (`os.makedirs`, `os.removedirs`)

`os.makedirs(name)` recursively creates the missing ancestors of `name`
and then `name` itself; the recursion descends before anything is created,
so every existence check sees the original filesystem.  The directories it
creates are a function of the original existence predicate alone, which
`makedirsCreated` computes. -/

/-- The list of directories `os.makedirs name` creates, given the
existence predicate `ex` of the filesystem it runs against.  Mirrors the
CPython 2 implementation, including the `tail == curdir` early return. -/
def makedirsCreated (ex : String → Bool) (name : String) : List String :=
  if h : (splitFix name).1 ≠ "" ∧ (splitFix name).2 ≠ "" ∧
      ¬ ex ((splitFix name).1) then
    if (splitFix name).2 = "." then makedirsCreated ex (splitFix name).1
    else name :: makedirsCreated ex (splitFix name).1
  else [name]
  termination_by name.data.length
  decreasing_by
    all_goals exact splitFix_fst_lt name h.2.1

/-! ## The metadata-cache filesystem (`MFS`)

State threaded through `InfoCache`: regular files carry either JSON text or
raw bytes, plus an mtime; `now` is the clock value stamped on writes. -/

/-- Contents of a file in the metadata cache. -/
inductive FData
  | text (s : String)
  | bytes (b : List Nat)
deriving DecidableEq

/-- The durable filesystem under the metadata cache. -/
structure MFS where
  files : List (String × FData × Nat)
  dirs : List String
  now : Nat
deriving DecidableEq

/-- `os.path.exists` (the metadata cache creates no symlinks). -/
def MFS.existsPath (fs : MFS) (p : String) : Bool :=
  (findA p fs.files).isSome || fs.dirs.any (fun d => d = p)

/-- `os.path.isdir`. -/
def MFS.isdir (fs : MFS) (p : String) : Bool := fs.dirs.any (fun d => d = p)

/-- `os.path.getmtime`, used by the source only on paths whose existence
was just checked or that were just written (`0` when the path is a bare
directory, a case the source never reaches). -/
def MFS.mtimeOf (fs : MFS) (p : String) : Nat :=
  match findA p fs.files with
  | some fd => fd.2
  | none => 0

/-- Read a text file (`ImageInfo.from_json` opens the path itself).  The
source treats unreadable/malformed content as a fatal propagated error;
no claim exercises that case, so a non-text file reads as `""`. -/
def MFS.readText (fs : MFS) (p : String) : String :=
  match findA p fs.files with
  | some (FData.text s, _) => s
  | _ => ""

/-- Read a binary file (`open(icc_fp, "rb").read()`). -/
def MFS.readBytes (fs : MFS) (p : String) : List Nat :=
  match findA p fs.files with
  | some (FData.bytes b, _) => b
  | _ => []

/-- `open(p, 'w'/'wb')` followed by a full write: (re)create the file with
the given contents, stamped with the current clock. -/
def MFS.writeFile (fs : MFS) (p : String) (d : FData) : MFS :=
  { fs with files := (p, d, fs.now) :: eraseK fs.files p }

/-- `os.unlink`: remove a file, `OSError` if absent. -/
def MFS.unlink (fs : MFS) (p : String) : Except PyErr MFS :=
  if (findA p fs.files).isSome then
    Except.ok { fs with files := eraseK fs.files p }
  else Except.error PyErr.osError

/-- `os.makedirs` on the metadata filesystem. -/
def MFS.makedirs (fs : MFS) (name : String) : MFS :=
  { fs with dirs := makedirsCreated fs.existsPath name ++ fs.dirs }

/-- Is the directory non-empty (it directly contains a file or another
directory)? -/
def MFS.dirNonempty (fs : MFS) (d : String) : Bool :=
  fs.files.any (fun e => dirname e.1 = d) ||
    fs.dirs.any (fun x => ¬ (x = d) ∧ dirname x = d)

/-- `os.rmdir`: fails when the directory is absent or non-empty. -/
def MFS.rmdir (fs : MFS) (d : String) : Except PyErr MFS :=
  if ¬ fs.isdir d then Except.error PyErr.osError
  else if fs.dirNonempty d then Except.error PyErr.osError
  else Except.ok { fs with dirs := fs.dirs.filter (fun x => ¬ (x = d)) }

/-- The pruning loop of `os.removedirs`: `while head and tail: try
rmdir(head) except error: break; head, tail = split(head)`.  Every error is
swallowed, so the loop returns a plain filesystem. -/
def removedirsLoop (fs : MFS) (head tail : String) : MFS :=
  if h : head ≠ "" ∧ tail ≠ "" then
    match fs.rmdir head with
    | Except.error _ => fs
    | Except.ok fs₁ => removedirsLoop fs₁ (psplit head).1 (psplit head).2
  else fs
  termination_by head.data.length + (if tail = "" then 0 else 1)
  decreasing_by
    exact psplit_measure_lt head tail h.2

/-- `os.removedirs(name)`: remove the leaf directory (propagating its
failure), then best-effort prune the emptied ancestors. -/
def MFS.removedirs (fs : MFS) (name : String) : Except PyErr MFS :=
  match fs.rmdir name with
  | Except.error e => Except.error e
  | Except.ok fs₁ =>
      Except.ok (removedirsLoop fs₁ (splitFix name).1 (splitFix name).2)

/-! ## `InfoCache` (`src/loris/img_infocache.py`) — the MetadataCache

The memory map is an `OrderedDict` keyed by `request.url`; all entries are
on the filesystem.  The lock only guards the map's structure, so a
single-threaded embedding threads the map and the filesystem explicitly. -/

/-- The state of an `InfoCache` instance. -/
structure InfoCache where
  http_root : String
  https_root : String
  size : Nat
  dict : List (PyKey × (ImageInfo × Nat))
deriving DecidableEq

/-- `InfoCache._which_root`. -/
def InfoCache.which_root (c : InfoCache) (r : PyRequest) : String :=
  if sStarts r.url "https" then c.https_root else c.http_root

/-- `InfoCache.ident_from_request`:
`'/'.join(request.path[1:].split('/')[:-1])`. -/
def ident_from_request (r : PyRequest) : String :=
  pyJoin "/" ((pySplit (strDrop r.path 1) '/').dropLast)

/-- `InfoCache._get_info_fp`:
`os.path.join(cache_root, unquote(ident), 'info.json')`. -/
def InfoCache.get_info_fp (c : InfoCache) (r : PyRequest) : String :=
  osJoin (osJoin (c.which_root r) (unquote (ident_from_request r))) "info.json"

/-- `InfoCache._get_color_profile_fp`:
`os.path.join(cache_root, unquote(ident), 'profile.icc')`. -/
def InfoCache.get_color_profile_fp (c : InfoCache) (r : PyRequest) : String :=
  osJoin (osJoin (c.which_root r) (unquote (ident_from_request r))) "profile.icc"

/-- `InfoCache.get`: consult the memory map under `request.url`; on a miss,
if the info file exists on disk, parse it, attach the sidecar profile if
present (else `None`), read the file's mtime, and insert the pair into the
map — with no eviction on this path.  Returns the result and the updated
cache; the filesystem is not modified. -/
def InfoCache.get (c : InfoCache) (r : PyRequest) (fs : MFS) :
    Option (ImageInfo × Nat) × InfoCache :=
  match findA (PyKey.str r.url) c.dict with
  | some v => (some v, c)
  | none =>
    let info_fp := c.get_info_fp r
    if fs.existsPath info_fp then
      let info := ImageInfo.from_json (fs.readText info_fp)
      let icc_fp := c.get_color_profile_fp r
      let info :=
        { info with color_profile_bytes :=
            if fs.existsPath icc_fp then some (fs.readBytes icc_fp) else none }
      let lastmod := fs.mtimeOf info_fp
      (some (info, lastmod),
        { c with dict := odSet c.dict (PyKey.str r.url) (info, lastmod) })
    else (none, c)

/-- `InfoCache.has_key` (also `__contains__`): a pure disk-existence check
of the info file; the memory map is neither consulted nor modified. -/
def InfoCache.has_key (c : InfoCache) (r : PyRequest) (fs : MFS) : Bool :=
  fs.existsPath (c.get_info_fp r)

/-- The filesystem half of `InfoCache.__setitem__` (`put`), lines 120-145:
create the parent directory if absent (an already-exists race is
swallowed), write the JSON text, and write the sidecar only when the
profile buffer is truthy (present and non-empty). -/
def InfoCache.put_fs (c : InfoCache) (r : PyRequest) (info : ImageInfo)
    (fs : MFS) : MFS :=
  let info_fp := c.get_info_fp r
  let dp := dirname info_fp
  let fs₁ := if fs.isdir dp then fs else fs.makedirs dp
  let fs₂ := fs₁.writeFile info_fp (FData.text info.to_json)
  match info.color_profile_bytes with
  | some b =>
      if b ≠ [] then fs₂.writeFile (c.get_color_profile_fp r) (FData.bytes b)
      else fs₂
  | none => fs₂

/-- `InfoCache.__setitem__` continued: after the disk writes, read back the
info file's mtime, then update the map under the lock, popping oldest
entries while at or above capacity before inserting. -/
def InfoCache.setitem (c : InfoCache) (r : PyRequest) (info : ImageInfo)
    (fs : MFS) : Except PyErr (InfoCache × MFS) :=
  let fs₃ := c.put_fs r info fs
  let lastmod := fs₃.mtimeOf (c.get_info_fp r)
  match evictLoop c.size c.dict with
  | Except.error e => Except.error e
  | Except.ok d =>
      Except.ok ({ c with dict := odSet d (PyKey.str r.url) (info, lastmod) }, fs₃)

/-- `InfoCache.__delitem__` (`delete`): the source runs
`del self._dict[request]` — indexing the url-keyed map with the request
object itself — then `os.unlink(info_fp)`, and then calls
`self._getcolor_profile_bytes(request)`, a method that does not exist on
the class, so control never reaches the sidecar unlink or the
`os.removedirs(os.path.dirname(info_fp))` cleanup that follow in the
source text. -/
def InfoCache.delitem (c : InfoCache) (r : PyRequest) (fs : MFS) :
    Except PyErr (InfoCache × MFS) :=
  match odDel c.dict (PyKey.req r) with
  | Except.error e => Except.error e
  | Except.ok d =>
    match fs.unlink (c.get_info_fp r) with
    | Except.error e => Except.error e
    | Except.ok fs₁ =>
      let _ := d
      let _ := fs₁
      Except.error PyErr.attributeError

/-! ## `ImageCache` (`src/loris/imgcache.py`) — the DerivativeCache

Filesystem-only: rendered files, symbolic-link aliases from non-canonical
request paths to canonical ones, and no memory tier.  `os.path.realpath`
resolves symlinks in arbitrary filesystem states; it is kept abstract as a
resolver carried by the filesystem value (instantiated with the identity on
link-free concrete states). -/

/-- The durable filesystem under the derivative cache. -/
structure IFS where
  files : List (String × Nat)
  links : List (String × String)
  dirs : List String
  realp : String → String

/-- `os.path.lexists`: does the path exist without following a final
symlink? -/
def IFS.lexists (fs : IFS) (p : String) : Bool :=
  (findA p fs.files).isSome || (findA p fs.links).isSome ||
    fs.dirs.any (fun d => d = p)

/-- `os.path.exists`: follows a final symlink (modelled one level deep; no
claim exercises chained links). -/
def IFS.existsPath (fs : IFS) (p : String) : Bool :=
  (findA p fs.files).isSome || fs.dirs.any (fun d => d = p) ||
    (match findA p fs.links with
     | some t => (findA t fs.files).isSome || fs.dirs.any (fun d => d = t)
     | none => false)

/-- `os.path.getmtime`: the mtime of the file the path resolves to;
`OSError` when it does not exist. -/
def IFS.getmtime (fs : IFS) (p : String) : Except PyErr Nat :=
  match findA p fs.files with
  | some m => Except.ok m
  | none =>
    match findA p fs.links with
    | some t =>
        (match findA t fs.files with
         | some m => Except.ok m
         | none => Except.error PyErr.osError)
    | none =>
        if fs.dirs.any (fun d => d = p) then Except.ok 0
        else Except.error PyErr.osError

/-- `os.unlink` at a call site guarded by `lexists`: remove the file or
symlink at the path. -/
def IFS.unlinkAt (fs : IFS) (p : String) : IFS :=
  { fs with files := eraseK fs.files p, links := eraseK fs.links p }

/-- `os.makedirs` on the derivative filesystem. -/
def IFS.makedirs (fs : IFS) (name : String) : IFS :=
  { fs with dirs := makedirsCreated fs.existsPath name ++ fs.dirs }

/-- An `ImageCache` instance holds only its root directory. -/
structure ImageCache where
  cache_root : String

/-- `ImageCache.get_request_cache_path`:
`realpath(join(cache_root, unquote(request.as_path)))`. -/
def ImageCache.get_request_cache_path (c : ImageCache) (fs : IFS)
    (r : PyRequest) : String :=
  fs.realp (osJoin c.cache_root (unquote r.as_path))

/-- `ImageCache.get_canonical_cache_path`:
`realpath(join(cache_root, unquote(request.canonical_as_path)))`. -/
def ImageCache.get_canonical_cache_path (c : ImageCache) (fs : IFS)
    (r : PyRequest) : String :=
  fs.realp (osJoin c.cache_root (unquote r.canonical_as_path))

/-- `ImageCache._link`: when source and link name coincide, warn (the
returned flag) and do nothing; otherwise create the link's parent directory
if missing, drop any stale entry at the link name, and create the symlink. -/
def ImageCache.link (fs : IFS) (source link_name : String) : IFS × Bool :=
  if source = link_name then (fs, true)
  else
    let link_dp := dirname link_name
    let fs₁ := if fs.existsPath link_dp then fs else fs.makedirs link_dp
    let fs₂ := if fs₁.lexists link_name then fs₁.unlinkAt link_name else fs₁
    ({ fs₂ with links := (link_name, source) :: fs₂.links }, false)

/-- `ImageCache.__setitem__` (`put`): only for non-canonical requests, make
a symlink from the requested path to the canonical path.  The returned flag
records whether the circular-symlink warning fired. -/
def ImageCache.setitem (c : ImageCache) (r : PyRequest) (canonical_fp : String)
    (fs : IFS) : IFS × Bool :=
  if r.is_canonical then (fs, false)
  else ImageCache.link fs canonical_fp (c.get_request_cache_path fs r)

/-- `ImageCache.__delitem__` (`delete`): the body is `pass`. -/
def ImageCache.delitem (c : ImageCache) (r : PyRequest) (fs : IFS) : IFS :=
  let _ := c
  let _ := r
  fs

/-- `ImageCache.get`: compute the requested path, take its mtime — before
any existence check — and only then test existence to decide hit or miss. -/
def ImageCache.get (c : ImageCache) (r : PyRequest) (fs : IFS) :
    Except PyErr (Option (String × Nat)) :=
  let cache_fp := c.get_request_cache_path fs r
  match fs.getmtime cache_fp with
  | Except.error e => Except.error e
  | Except.ok last_mod =>
      if fs.existsPath cache_fp then Except.ok (some (cache_fp, last_mod))
      else Except.ok none

/-- `ImageCache.create_dir_and_return_file_path` (`reserve`): ensure the
canonical path's parent directory exists (already-exists swallowed) and
return the canonical path. -/
def ImageCache.create_dir_and_return_file_path (c : ImageCache)
    (r : PyRequest) (fs : IFS) : String × IFS :=
  let target_fp := c.get_canonical_cache_path fs r
  let target_dp := dirname target_fp
  (target_fp, if fs.existsPath target_dp then fs else fs.makedirs target_dp)

/-! ## Supporting lemmas -/

lemma findA_odSet_self {κ α : Type} [DecidableEq κ] (d : List (κ × α))
    (k : κ) (v : α) : findA k (odSet d k v) = some v := by
  induction d with
  | nil => simp [odSet, findA]
  | cons e t ih => by_cases h : e.1 = k <;> simp [odSet, h, findA, ih]

lemma odSet_length_le {κ α : Type} [DecidableEq κ] (d : List (κ × α))
    (k : κ) (v : α) : (odSet d k v).length ≤ d.length + 1 := by
  induction d with
  | nil => simp [odSet]
  | cons e t ih => by_cases h : e.1 = k <;> simp [odSet, h] <;> omega

lemma odSet_of_findA_none {κ α : Type} [DecidableEq κ] {d : List (κ × α)}
    {k : κ} (v : α) (h : findA k d = none) : odSet d k v = d ++ [(k, v)] := by
  induction d with
  | nil => simp [odSet]
  | cons e t ih =>
    by_cases hc : e.1 = k
    · rw [findA, if_pos hc] at h
      exact absurd h (by simp)
    · rw [findA, if_neg hc] at h
      simp [odSet, hc, ih h]

lemma findA_eraseK_ne {κ α : Type} [DecidableEq κ] (l : List (κ × α))
    {k p : κ} (h : k ≠ p) : findA k (eraseK l p) = findA k l := by
  induction l with
  | nil => simp [eraseK]
  | cons e t ih =>
    by_cases hc : e.1 = p
    · have hk : ¬ (e.1 = k) := by
        rw [hc]
        exact fun hx => h hx.symm
      rw [eraseK, if_pos hc, findA, if_neg hk]
      exact ih
    · rw [eraseK, if_neg hc, findA, findA]
      by_cases hk : e.1 = k
      · rw [if_pos hk, if_pos hk]
      · rw [if_neg hk, if_neg hk]
        exact ih

lemma evictLoop_ok {κ α : Type} (size : Nat) (d : List (κ × α))
    (h : 1 ≤ size) : ∃ d₂, evictLoop size d = Except.ok d₂ ∧ d₂.length < size := by
  induction d with
  | nil =>
    refine ⟨[], ?_, by simpa using h⟩
    rw [evictLoop, if_neg (by omega)]
  | cons e t ih =>
    by_cases hc : size ≤ t.length + 1
    · rw [evictLoop, if_pos hc]
      exact ih
    · exact ⟨e :: t, by rw [evictLoop, if_neg hc], by simp at hc ⊢; omega⟩

lemma findA_writeFile (fs : MFS) (p q : String) (d : FData) :
    findA q (fs.writeFile p d).files =
      if p = q then some (d, fs.now) else findA q fs.files := by
  by_cases h : p = q
  · subst h
    simp [MFS.writeFile, findA]
  · simp [MFS.writeFile, findA, h, findA_eraseK_ne _ (fun hx => h hx.symm)]

lemma mtimeOf_writeFile (fs : MFS) (p q : String) (d : FData) :
    (fs.writeFile p d).mtimeOf q = if p = q then fs.now else fs.mtimeOf q := by
  rw [MFS.mtimeOf, findA_writeFile]
  by_cases h : p = q <;> simp [h, MFS.mtimeOf]

lemma existsPath_writeFile (fs : MFS) (p q : String) (d : FData) :
    (fs.writeFile p d).existsPath q =
      (if p = q then true else fs.existsPath q) := by
  rw [MFS.existsPath, findA_writeFile]
  by_cases h : p = q <;> simp [h, MFS.existsPath, MFS.writeFile]

lemma string_data_append (a b : String) : (a ++ b).data = a.data ++ b.data := by
  obtain ⟨l⟩ := a
  obtain ⟨m⟩ := b
  rfl

lemma string_append_cancel {X a b : String} (h : X ++ a = X ++ b) : a = b := by
  apply String.ext
  have hd := congrArg String.data h
  rw [string_data_append, string_data_append] at hd
  exact List.append_cancel_left hd

lemma osJoin_inj_right {a b : String} (X : String) (ha : sStarts a "/" = false)
    (hb : sStarts b "/" = false) (h : osJoin X a = osJoin X b) : a = b := by
  rw [osJoin, osJoin, ha, hb] at h
  simp only [Bool.false_eq_true, if_false] at h
  by_cases hc : X = "" ∨ sEnds X "/" = true
  · rw [if_pos hc, if_pos hc] at h
    exact string_append_cancel h
  · rw [if_neg hc, if_neg hc] at h
    exact string_append_cancel h

lemma icc_fp_ne_info_fp (c : InfoCache) (r : PyRequest) :
    c.get_color_profile_fp r ≠ c.get_info_fp r := by
  intro h
  have hab := osJoin_inj_right _ (by decide) (by decide) h
  exact absurd hab (by decide)

lemma writeFile_now (fs : MFS) (p : String) (d : FData) :
    (fs.writeFile p d).now = fs.now := rfl

lemma get_info_fp_set_dict (c : InfoCache) (d : List (PyKey × (ImageInfo × Nat)))
    (r : PyRequest) :
    InfoCache.get_info_fp { c with dict := d } r = c.get_info_fp r := rfl

lemma get_icc_fp_set_dict (c : InfoCache) (d : List (PyKey × (ImageInfo × Nat)))
    (r : PyRequest) :
    InfoCache.get_color_profile_fp { c with dict := d } r =
      c.get_color_profile_fp r := rfl

lemma mtimeOf_put_fs_info (c : InfoCache) (r : PyRequest) (info : ImageInfo)
    (fs : MFS) :
    (c.put_fs r info fs).mtimeOf (c.get_info_fp r) = fs.now := by
  have hbase : ((if fs.isdir (dirname (c.get_info_fp r)) then fs
      else fs.makedirs (dirname (c.get_info_fp r))) : MFS).now = fs.now := by
    split <;> rfl
  rw [InfoCache.put_fs]
  rcases hp : info.color_profile_bytes with _ | b
  · simp only [hp]
    rw [mtimeOf_writeFile, if_pos rfl]
    exact hbase
  · simp only [hp]
    split
    · rw [mtimeOf_writeFile]
      split
      · rw [writeFile_now]
        exact hbase
      · rw [mtimeOf_writeFile, if_pos rfl]
        exact hbase
    · rw [mtimeOf_writeFile, if_pos rfl]
      exact hbase

lemma put_fs_no_sidecar (c : InfoCache) (r : PyRequest) (info : ImageInfo)
    (fs : MFS)
    (h2 : info.color_profile_bytes = none ∨ info.color_profile_bytes = some [])
    (h3 : fs.isdir (dirname (c.get_info_fp r)) = true) :
    c.put_fs r info fs =
      fs.writeFile (c.get_info_fp r) (FData.text info.to_json) := by
  rw [InfoCache.put_fs]
  rcases h2 with hp | hp
  · simp only [hp, if_pos h3]
  · simp only [hp, if_pos h3]
    simp

/-! ## The claims -/

/-- Claim C1, counterexample.  With capacity 1 and the map already holding
one entry, an `InfoCache.get` that misses in memory and rehydrates from
disk inserts a second entry without evicting: immediately afterwards the
same cache reports a map of 2 entries against a capacity of 1, so the map
does exceed the configured capacity after an operation. -/
theorem get_rehydrate_overflows_capacity :
    (InfoCache.get ⟨"c/http", "c/https", 1, [(PyKey.str "u1", (⟨"p1", none⟩, 3))]⟩
        ⟨"u2", "/img2/info.json", "", "", false⟩
        ⟨[("c/http/img2/info.json", FData.text "p2", 5)], [], 9⟩).2.dict.length = 2 ∧
    (InfoCache.get ⟨"c/http", "c/https", 1, [(PyKey.str "u1", (⟨"p1", none⟩, 3))]⟩
        ⟨"u2", "/img2/info.json", "", "", false⟩
        ⟨[("c/http/img2/info.json", FData.text "p2", 5)], [], 9⟩).2.size = 1 := by
  decide

/-- Claim C1, amended.  Immediately after a `put` the map holds at most the
configured capacity: `__setitem__` pops least-recently-inserted entries
while at or above capacity before inserting.  A `get` that misses in
memory and rehydrates from disk, however, inserts the rehydrated entry
with no eviction at all (the map becomes the old map with the entry
appended), so the capacity bound holds after `put` but not after a
rehydrating `get`. -/
theorem put_bounded_get_inserts_without_evicting (c : InfoCache)
    (r : PyRequest) (info : ImageInfo) (fs : MFS) (h1 : 1 ≤ c.size)
    (h2 : findA (PyKey.str r.url) c.dict = none)
    (h3 : fs.existsPath (c.get_info_fp r) = true) :
    (∃ c₁ fs₁, InfoCache.setitem c r info fs = Except.ok (c₁, fs₁) ∧
        c₁.dict.length ≤ c.size) ∧
    (∃ e, InfoCache.get c r fs =
        (some e, { c with dict := c.dict ++ [(PyKey.str r.url, e)] })) := by
  obtain ⟨d₂, hok, hlt⟩ := evictLoop_ok c.size c.dict h1
  constructor
  · refine ⟨{ c with dict :=
        (odSet d₂ (PyKey.str r.url)
          (info, (c.put_fs r info fs).mtimeOf (c.get_info_fp r))) },
      c.put_fs r info fs, ?_, ?_⟩
    · simp only [InfoCache.setitem, hok]
    · exact (odSet_length_le d₂ _ _).trans (by omega)
  · refine ⟨({ ImageInfo.from_json (fs.readText (c.get_info_fp r)) with
        color_profile_bytes :=
          (if fs.existsPath (c.get_color_profile_fp r) then
            some (fs.readBytes (c.get_color_profile_fp r)) else none) },
      fs.mtimeOf (c.get_info_fp r)), ?_⟩
    simp only [InfoCache.get, h2, h3, if_true]
    rw [odSet_of_findA_none _ h2]

/-- Claim C1, amended, witness. -/
theorem put_bounded_get_inserts_without_evicting_witness :
    (∃ c₁ fs₁,
        InfoCache.setitem ⟨"c/http", "c/https", 2, []⟩
          ⟨"u2", "/img2/info.json", "", "", false⟩ ⟨"p2", none⟩
          ⟨[("c/http/img2/info.json", FData.text "p2", 5)],
            ["c/http/img2"], 9⟩ = Except.ok (c₁, fs₁) ∧
        c₁.dict.length ≤ (⟨"c/http", "c/https", 2, []⟩ : InfoCache).size) ∧
    (∃ e, InfoCache.get ⟨"c/http", "c/https", 2, []⟩
        ⟨"u2", "/img2/info.json", "", "", false⟩
        ⟨[("c/http/img2/info.json", FData.text "p2", 5)],
          ["c/http/img2"], 9⟩ =
      (some e, { (⟨"c/http", "c/https", 2, []⟩ : InfoCache) with
        dict := ([] : List (PyKey × (ImageInfo × Nat))) ++
          [(PyKey.str "u2", e)] })) :=
  put_bounded_get_inserts_without_evicting _ _ _ _ (by decide) (by decide)
    (by decide)

/-- Claim C4.  `put(id, r)` immediately followed by `get(id)` hits the
freshly inserted memory entry: it returns the very record `r` paired with
the backing info file's modification time, and that time is the
filesystem clock at the moment of the write. -/
theorem put_then_get_returns_record_and_write_mtime (c : InfoCache)
    (r : PyRequest) (info : ImageInfo) (fs : MFS) (h1 : 1 ≤ c.size) :
    ∃ c₁ fs₁, InfoCache.setitem c r info fs = Except.ok (c₁, fs₁) ∧
      InfoCache.get c₁ r fs₁ =
        (some (info, fs₁.mtimeOf (c.get_info_fp r)), c₁) ∧
      fs₁.mtimeOf (c.get_info_fp r) = fs.now := by
  obtain ⟨d₂, hok, hlt⟩ := evictLoop_ok c.size c.dict h1
  refine ⟨{ c with dict :=
      (odSet d₂ (PyKey.str r.url)
        (info, (c.put_fs r info fs).mtimeOf (c.get_info_fp r))) },
    c.put_fs r info fs, ?_, ?_, ?_⟩
  · simp only [InfoCache.setitem, hok]
  · simp only [InfoCache.get, findA_odSet_self]
  · exact mtimeOf_put_fs_info c r info fs

/-- Claim C4, witness. -/
theorem put_then_get_returns_record_and_write_mtime_witness :
    ∃ c₁ fs₁,
      InfoCache.setitem ⟨"c/http", "c/https", 1, []⟩
        ⟨"u2", "/img2/info.json", "", "", false⟩ ⟨"p2", none⟩
        ⟨[], ["c/http/img2"], 9⟩ = Except.ok (c₁, fs₁) ∧
      InfoCache.get c₁ ⟨"u2", "/img2/info.json", "", "", false⟩ fs₁ =
        (some (⟨"p2", none⟩,
          fs₁.mtimeOf (InfoCache.get_info_fp ⟨"c/http", "c/https", 1, []⟩
            ⟨"u2", "/img2/info.json", "", "", false⟩)), c₁) ∧
      fs₁.mtimeOf (InfoCache.get_info_fp ⟨"c/http", "c/https", 1, []⟩
        ⟨"u2", "/img2/info.json", "", "", false⟩) =
        (⟨[], ["c/http/img2"], 9⟩ : MFS).now :=
  put_then_get_returns_record_and_write_mtime _ _ _ _ (by decide)

/-- Claim C9.  When the record's profile buffer is absent (`None`) or empty
(`b''`, falsy), `put` writes nothing at the sidecar path (the filesystem's
file map is unchanged there), and a later `get` on a fresh (empty-memory)
cache rehydrates the identity from disk with its profile buffer `None` —
an empty buffer does not round-trip as empty, it becomes absent.  Stated
for states where the parent directory already exists and no stale sidecar
file sits at the sidecar path. -/
theorem empty_profile_rehydrates_as_none (c : InfoCache) (r : PyRequest)
    (info : ImageInfo) (fs : MFS) (h1 : 1 ≤ c.size)
    (h2 : info.color_profile_bytes = none ∨ info.color_profile_bytes = some [])
    (h3 : fs.isdir (dirname (c.get_info_fp r)) = true)
    (h4 : fs.existsPath (c.get_color_profile_fp r) = false) :
    ∃ c₁ fs₁, InfoCache.setitem c r info fs = Except.ok (c₁, fs₁) ∧
      findA (c.get_color_profile_fp r) fs₁.files =
        findA (c.get_color_profile_fp r) fs.files ∧
      ((InfoCache.get { c with dict := [] } r fs₁).1.map
          (fun e => e.1.color_profile_bytes)) = some none := by
  obtain ⟨d₂, hok, hlt⟩ := evictLoop_ok c.size c.dict h1
  have hfs : c.put_fs r info fs =
      fs.writeFile (c.get_info_fp r) (FData.text info.to_json) :=
    put_fs_no_sidecar c r info fs h2 h3
  have hne : ¬ (c.get_info_fp r = c.get_color_profile_fp r) :=
    fun hx => icc_fp_ne_info_fp c r hx.symm
  refine ⟨{ c with dict :=
      (odSet d₂ (PyKey.str r.url)
        (info, (c.put_fs r info fs).mtimeOf (c.get_info_fp r))) },
    c.put_fs r info fs, ?_, ?_, ?_⟩
  · simp only [InfoCache.setitem, hok]
  · rw [hfs, findA_writeFile, if_neg hne]
  · rw [hfs]
    simp only [InfoCache.get, findA, get_info_fp_set_dict, get_icc_fp_set_dict,
      existsPath_writeFile, if_pos rfl, if_neg hne, h4, if_true, if_false]
    simp

/-- Claim C9, witness (an explicitly empty profile buffer). -/
theorem empty_profile_rehydrates_as_none_witness :
    ∃ c₁ fs₁,
      InfoCache.setitem ⟨"c/http", "c/https", 2, []⟩
        ⟨"u2", "/img2/info.json", "", "", false⟩ ⟨"p2", some []⟩
        ⟨[], ["c/http/img2"], 9⟩ = Except.ok (c₁, fs₁) ∧
      findA (InfoCache.get_color_profile_fp ⟨"c/http", "c/https", 2, []⟩
          ⟨"u2", "/img2/info.json", "", "", false⟩) fs₁.files =
        findA (InfoCache.get_color_profile_fp ⟨"c/http", "c/https", 2, []⟩
          ⟨"u2", "/img2/info.json", "", "", false⟩)
          (⟨[], ["c/http/img2"], 9⟩ : MFS).files ∧
      ((InfoCache.get { (⟨"c/http", "c/https", 2, []⟩ : InfoCache) with
          dict := ([] : List (PyKey × (ImageInfo × Nat))) }
          ⟨"u2", "/img2/info.json", "", "", false⟩ fs₁).1.map
        (fun e => e.1.color_profile_bytes)) = some none :=
  empty_profile_rehydrates_as_none _ _ _ _ (by decide) (by decide) (by decide)
    (by decide)

/-- Claim C2, code evidence.  For an identity whose file is absent,
`ImageCache.get` raises `OSError` (from `getmtime`, called before the
existence check) instead of returning the empty result its own docstring
promises. -/
theorem imagecache_get_raises_on_missing_file :
    ImageCache.get ⟨"cache"⟩
      ⟨"u", "/x", "a/b/full/0/default.jpg", "a/b/full/0/default.jpg", false⟩
      ⟨[], [], [], fun s => s⟩ = Except.error PyErr.osError := rfl

/-- Claim C3, code evidence.  For an identity present in the memory map
(keyed, as everywhere else, by `request.url`) and present on disk,
`InfoCache.__delitem__` raises `KeyError`: it indexes the map with the
request object itself, which never equals a URL string key.  (Were that
repaired, it would still raise `AttributeError` at the nonexistent
`_getcolor_profile_bytes` before touching the sidecar or the directory.) -/
theorem infocache_delete_raises_keyerror :
    InfoCache.delitem
      ⟨"c/http", "c/https", 500,
        [(PyKey.str "http://e/img/info.json", (⟨"p", none⟩, 4))]⟩
      ⟨"http://e/img/info.json", "/img/info.json", "", "", false⟩
      ⟨[("c/http/img/info.json", FData.text "p", 4)], ["c/http/img"], 9⟩ =
    Except.error PyErr.keyError := rfl

/-- Claim C5, counterexample.  The directory-removal step of
`InfoCache.__delitem__` is a bare `os.removedirs(dirname(info_fp))`; when
the parent directory still contains another file it raises `OSError`
rather than treating the failure as best-effort success. -/
theorem removedirs_raises_on_nonempty_parent :
    MFS.removedirs
      ⟨[("c/http/img/other.dat", FData.bytes [7], 2)], ["c/http/img"], 9⟩
      "c/http/img" = Except.error PyErr.osError := rfl

/-- Claim C5, amended.  The `os.removedirs` call raises exactly when
removing the leaf parent directory itself fails (for example because it is
not empty); once the leaf is removed, every failure while pruning the
emptied ancestor directories is swallowed, so only the leaf removal can
make the step raise. -/
theorem removedirs_errors_exactly_on_leaf_rmdir (fs : MFS) (d : String)
    (e : PyErr) :
    fs.removedirs d = Except.error e ↔ fs.rmdir d = Except.error e := by
  rcases h : fs.rmdir d with e₂ | fs₂ <;> simp [MFS.removedirs, h]

/-- Claim C6.  A `put` on a non-canonical identity whose computed requested
path coincides with the canonical path skips link creation entirely: the
filesystem is returned unchanged (no symlink, no other mutation), no error
is raised, and the circular-symlink warning fires. -/
theorem put_collapse_no_link_warns (c : ImageCache) (r : PyRequest)
    (canonical_fp : String) (fs : IFS) (h1 : r.is_canonical = false)
    (h2 : c.get_request_cache_path fs r = canonical_fp) :
    ImageCache.setitem c r canonical_fp fs = (fs, true) := by
  rw [ImageCache.setitem, if_neg (by simp [h1]), h2, ImageCache.link,
    if_pos rfl]

/-- Claim C6, witness. -/
theorem put_collapse_no_link_warns_witness :
    ImageCache.setitem ⟨"cache"⟩ ⟨"u", "/x", "a/full", "a/full", false⟩
      "cache/a/full" ⟨[], [], [], fun s => s⟩ =
    (⟨[], [], [], fun s => s⟩, true) :=
  put_collapse_no_link_warns _ _ _ _ rfl rfl

/-- Claim C7.  A `put` on an identity whose is-canonical flag is true does
nothing: no alias link is created, the filesystem is returned unchanged,
and no warning fires. -/
theorem put_canonical_is_noop (c : ImageCache) (r : PyRequest) (p : String)
    (fs : IFS) (h : r.is_canonical = true) :
    ImageCache.setitem c r p fs = (fs, false) := by
  rw [ImageCache.setitem, if_pos h]

/-- Claim C7, witness. -/
theorem put_canonical_is_noop_witness :
    ImageCache.setitem ⟨"cache"⟩ ⟨"u", "/x", "a/full", "a/full", true⟩
      "cache/a/full" ⟨[], [], [], fun s => s⟩ =
    (⟨[], [], [], fun s => s⟩, false) :=
  put_canonical_is_noop _ _ _ _ rfl

/-- Claim C8.  `contains` (`has_key`) returns exactly the on-disk existence
of the info file: its result is the same for any two caches that agree on
the cache roots, however their memory maps (and capacities) differ, and —
the operation being a pure function of the cache and filesystem values —
it changes neither. -/
theorem has_key_is_disk_only (c c₂ : InfoCache) (r : PyRequest) (fs : MFS)
    (h1 : c₂.http_root = c.http_root) (h2 : c₂.https_root = c.https_root) :
    InfoCache.has_key c₂ r fs = fs.existsPath (c.get_info_fp r) := by
  rw [InfoCache.has_key, InfoCache.get_info_fp, InfoCache.get_info_fp,
    InfoCache.which_root, InfoCache.which_root, h1, h2]

/-- Claim C8, witness. -/
theorem has_key_is_disk_only_witness :
    InfoCache.has_key
      ⟨"c/http", "c/https", 7, [(PyKey.str "u9", (⟨"z", none⟩, 1))]⟩
      ⟨"u2", "/img2/info.json", "", "", false⟩
      ⟨[("c/http/img2/info.json", FData.text "p2", 5)], [], 9⟩ =
    MFS.existsPath ⟨[("c/http/img2/info.json", FData.text "p2", 5)], [], 9⟩
      (InfoCache.get_info_fp ⟨"c/http", "c/https", 1, []⟩
        ⟨"u2", "/img2/info.json", "", "", false⟩) :=
  has_key_is_disk_only _ _ _ _ rfl rfl

/-- Claim C10.  The delete operation exposed on the derivative cache
(`ImageCache.__delitem__`) is literally `pass`: it raises nothing and
leaves the filesystem — and everything else — unchanged. -/
theorem imagecache_delete_is_noop (c : ImageCache) (r : PyRequest)
    (fs : IFS) : ImageCache.delitem c r fs = fs := rfl

end Loris
